import Mathlib

/-!
Shallow embedding of `src/components/LogisticsObjectForm.jsx` (ONExplorer).

The component's data layer is embedded as pure Lean functions over a model
of JavaScript values (`JVal`) and JavaScript numbers (`JNum`).  Every
definition below is translated from the source file; line numbers in the
doc comments refer to `LogisticsObjectForm.jsx`.  External collaborators of
the component (the dynamic schema `import`, the codelist asset, and the
`Date.parse` builtin) are injected as explicit function parameters, mirroring
how the code consumes them.
-/

set_option autoImplicit false

namespace LOForm

/-- JavaScript numbers as used by this component: either `NaN` or a rational
value.  The numeric operations appearing in the source are `parseInt`,
`parseFloat` and `Date.parse`, whose results on the inputs handled here are
exact decimal values, so rationals model them without float rounding. -/
inductive JNum where
  | nan : JNum
  | num : ℚ → JNum
deriving DecidableEq, Repr

/-- JavaScript values flowing through the form component: primitives,
arrays, and objects (modelled as association lists of string keys). -/
inductive JVal where
  | undefined : JVal
  | null : JVal
  | bool : Bool → JVal
  | num : JNum → JVal
  | str : String → JVal
  | arr : List JVal → JVal
  | obj : List (String × JVal) → JVal

/-- JavaScript truthiness: `undefined`, `null`, `false`, `NaN`, `0` and `""`
are falsy; every other value (including empty arrays and objects) is truthy. -/
def jsTruthy : JVal → Bool
  | .undefined => false
  | .null => false
  | .bool b => b
  | .num .nan => false
  | .num (.num q) => decide (q ≠ 0)
  | .str s => decide (s ≠ "")
  | .arr _ => true
  | .obj _ => true

/-- Value of a list of decimal digit characters. -/
def digitsToNat (ds : List Char) : Nat :=
  ds.foldl (fun a c => a * 10 + (c.toNat - 48)) 0

/-- Leading-whitespace removal on a character list (kernel-computable stand-in
for `String.trimLeft`). -/
def trimLeftChars (cs : List Char) : List Char :=
  cs.dropWhile Char.isWhitespace

/-- Whitespace removal on both ends (stand-in for `String.trim`). -/
def trimChars (cs : List Char) : List Char :=
  ((trimLeftChars cs).reverse.dropWhile Char.isWhitespace).reverse

/-- Auxiliary splitter: split a character list at every occurrence of `c`. -/
def splitCharAux (c : Char) : List Char → List Char → List (List Char)
  | [], acc => [acc.reverse]
  | x :: rest, acc =>
    if x = c then acc.reverse :: splitCharAux c rest []
    else splitCharAux c rest (x :: acc)

/-- Model of JavaScript `s.split(c)` for a single-character separator
(kernel-computable stand-in for `String.splitOn`). -/
def jsSplit (c : Char) (s : String) : List String :=
  (splitCharAux c s.toList []).map (fun cs => String.mk cs)

/-- Lower-casing (stand-in for `String.toLower`). -/
def lowerStr (s : String) : String :=
  String.mk (s.toList.map Char.toLower)

/-- Model of JavaScript `parseInt(s, 10)`: skip leading whitespace, read an
optional sign and the longest prefix of decimal digits; no digits means
`NaN`.  Trailing non-digit characters are ignored, as in JavaScript. -/
def jsParseIntStr (s : String) : JNum :=
  let cs := trimLeftChars s.toList
  let signed : Int × List Char :=
    match cs with
    | '-' :: rest => (-1, rest)
    | '+' :: rest => (1, rest)
    | cs => (1, cs)
  let ds := signed.2.takeWhile Char.isDigit
  if ds.isEmpty then .nan
  else .num ((signed.1 * (digitsToNat ds : Int) : Int) : ℚ)

/-- Model of JavaScript `parseFloat(s)`: skip leading whitespace, read an
optional sign, integer digits and an optional fractional part; at least one
digit is required, otherwise `NaN`.  Exponent notation is not modelled (no
call site in the component feeds exponent-formatted input to it in the
properties verified here). -/
def jsParseFloatStr (s : String) : JNum :=
  let cs := trimLeftChars s.toList
  let signed : Int × List Char :=
    match cs with
    | '-' :: rest => (-1, rest)
    | '+' :: rest => (1, rest)
    | cs => (1, cs)
  let ip := signed.2.takeWhile Char.isDigit
  let rest1 := signed.2.drop ip.length
  let fp :=
    match rest1 with
    | '.' :: r => r.takeWhile Char.isDigit
    | _ => []
  if ip.isEmpty && fp.isEmpty then .nan
  else if fp.isEmpty then .num ((signed.1 * (digitsToNat ip : Int) : Int) : ℚ)
  else .num ((signed.1 : ℚ) * ((digitsToNat ip : ℚ) + (digitsToNat fp : ℚ) / ((10 : ℚ) ^ fp.length)))

/-- Model of JavaScript `Number(s)` string-to-number coercion (used by the
`==` loose-equality model): the whole trimmed string must be a decimal
numeral; an empty trimmed string is `0`. -/
def jsStringToNumber (s : String) : JNum :=
  let cs0 := trimChars s.toList
  if cs0.isEmpty then .num 0
  else
    let cs := cs0
    let signed : Int × List Char :=
      match cs with
      | '-' :: rest => (-1, rest)
      | '+' :: rest => (1, rest)
      | cs => (1, cs)
    let ip := signed.2.takeWhile Char.isDigit
    let rest1 := signed.2.drop ip.length
    let fp :=
      match rest1 with
      | '.' :: r => r.takeWhile Char.isDigit
      | _ => []
    let rest2 :=
      match rest1 with
      | '.' :: r => r.drop fp.length
      | _ => rest1
    if (ip.isEmpty && fp.isEmpty) || !rest2.isEmpty then .nan
    else if fp.isEmpty then .num ((signed.1 * (digitsToNat ip : Int) : Int) : ℚ)
    else .num ((signed.1 : ℚ) * ((digitsToNat ip : ℚ) + (digitsToNat fp : ℚ) / ((10 : ℚ) ^ fp.length)))

/-- Decimal rendering of a rational whose denominator divides a power of ten
(which covers every value produced by the parse functions above); trailing
fraction zeros are suppressed as JavaScript does. -/
def ratDecimalString (q : ℚ) : String :=
  match (List.range 31).find? (fun k => (10 ^ k) % q.den = 0) with
  | some k =>
    let sign := if q < 0 then "-" else ""
    let n : Nat := (q.num.natAbs * 10 ^ k) / q.den
    let ip := n / 10 ^ k
    let fr := n % 10 ^ k
    if fr = 0 then sign ++ toString ip
    else
      let fs := toString fr
      let fs := String.mk (List.replicate (k - fs.length) '0') ++ fs
      let fs := String.mk ((fs.toList.reverse.dropWhile (fun c => c = '0')).reverse)
      sign ++ toString ip ++ "." ++ fs
  | none => toString q

/-- Model of JavaScript number-to-string conversion. -/
def jsNumToString : JNum → String
  | .nan => "NaN"
  | .num q => if q.den = 1 then toString q.num else ratDecimalString q

/-- One-level JavaScript `String()` coercion for non-array values. -/
def jsToStringAtom : JVal → String
  | .undefined => "undefined"
  | .null => "null"
  | .bool true => "true"
  | .bool false => "false"
  | .num n => jsNumToString n
  | .str s => s
  | .arr _ => ""
  | .obj _ => "[object Object]"

/-- Model of JavaScript `String()` coercion.  Array elements are rendered one
level deep (`null`/`undefined` elements render empty, as in JavaScript);
nested arrays inside arrays are approximated, no component call site builds
them. -/
def jsToString : JVal → String
  | .arr xs =>
    String.intercalate "," (xs.map fun x =>
      match x with
      | .null => ""
      | .undefined => ""
      | x => jsToStringAtom x)
  | v => jsToStringAtom v

/-- Equality of JavaScript numbers: `NaN` is equal to nothing. -/
def jnumEq : JNum → JNum → Bool
  | .nan, _ => false
  | _, .nan => false
  | .num a, .num b => decide (a = b)

/-- Model of JavaScript loose equality `==` on the primitive values the
component compares (string/number/boolean/null/undefined); the ToPrimitive
coercion of objects and arrays is not modelled. -/
def jsLooseEq (a b : JVal) : Bool :=
  match a, b with
  | .str s, .str t => s == t
  | .num m, .num n => jnumEq m n
  | .str s, .num n => jnumEq (jsStringToNumber s) n
  | .num m, .str s => jnumEq m (jsStringToNumber s)
  | .bool x, .num n => jnumEq (.num (if x then 1 else 0)) n
  | .num m, .bool y => jnumEq m (.num (if y then 1 else 0))
  | .bool x, .str s => jnumEq (.num (if x then 1 else 0)) (jsStringToNumber s)
  | .str s, .bool y => jnumEq (jsStringToNumber s) (.num (if y then 1 else 0))
  | .bool x, .bool y => x == y
  | .null, .null => true
  | .null, .undefined => true
  | .undefined, .null => true
  | .undefined, .undefined => true
  | _, _ => false

/-- JavaScript strict equality `===` of a value against a string literal. -/
def jsStrictEqStr (v : JVal) (s : String) : Bool :=
  match v with
  | .str t => t == s
  | _ => false

/-- Lookup of a key in an object's field list (first match; `objSet` keeps
keys unique). -/
def objGet : List (String × JVal) → String → Option JVal
  | [], _ => none
  | p :: rest, k => if p.1 = k then some p.2 else objGet rest k

/-- Removal of every binding of a key. -/
def objRemove : List (String × JVal) → String → List (String × JVal)
  | [], _ => []
  | p :: rest, k => if p.1 = k then objRemove rest k else p :: objRemove rest k

/-- Setting a key in an object's field list; models the effect of a JavaScript
object-literal/spread assignment on lookups (JavaScript's preservation of the
insertion position of an existing key is not modelled, only the resulting
key-to-value mapping). -/
def objSet (fs : List (String × JVal)) (k : String) (v : JVal) : List (String × JVal) :=
  objRemove fs k ++ [(k, v)]

/-- JavaScript property access `v[k]` on a non-nullish value: `undefined`
unless `v` is an object that has the key.  Every call site in the component
guards the access with a truthiness or optional-chaining check, so the
nullish cases never reach this function with observable effect. -/
def propGet (v : JVal) (k : String) : JVal :=
  match v with
  | .obj fs => (objGet fs k).getD .undefined
  | _ => .undefined

/-- JavaScript optional chaining `v?.[k]`. -/
def optChain (v : JVal) (k : String) : JVal :=
  match v with
  | .undefined => .undefined
  | .null => .undefined
  | v => propGet v k

/-- JavaScript `a || b`. -/
def jsOr (a b : JVal) : JVal := if jsTruthy a then a else b

/-- The test `val === 'true' || val === true` used by the boolean encoders
(lines 120, 377, 520 of the source). -/
def isTrueLiteral : JVal → Bool
  | .str t => t == "true"
  | .bool b => b
  | _ => false

def xsdBoolean : String := "http://www.w3.org/2001/XMLSchema#boolean"

def xsdInteger : String := "http://www.w3.org/2001/XMLSchema#integer"

def xsdDouble : String := "http://www.w3.org/2001/XMLSchema#double"

def xsdDateTime : String := "http://www.w3.org/2001/XMLSchema#dateTime"

/-- `createTypedValue(val, dataType)`, source lines 113-141.  The `Date.parse`
builtin is injected as `dparse` (the source coerces its argument to a string
and calls `.toString()` on the numeric result). -/
def createTypedValue (dparse : String → JNum) (val : JVal) (dataType : String) : JVal :=
  if dataType = "url" then .obj [("@id", val)]
  else if dataType = "boolean" then
    .obj [("@type", .str xsdBoolean), ("@value", .str (if isTrueLiteral val then "true" else "false"))]
  else if dataType = "integer" then
    .obj [("@type", .str xsdInteger), ("@value", .str (jsToString val))]
  else if dataType = "double" then
    .obj [("@type", .str xsdDouble), ("@value", .str (jsToString val))]
  else if dataType = "datetime" then
    .obj [("@type", .str xsdDateTime), ("@value", .str (jsNumToString (dparse (jsToString val))))]
  else val

/-- `extractValue(typedValue, dataType)`, source lines 143-156. -/
def extractValue (typedValue : JVal) (dataType : String) : JVal :=
  if jsTruthy typedValue = false then .str ""
  else if dataType = "url" then jsOr (propGet typedValue "@id") (.str "")
  else if dataType = "boolean" ∨ dataType = "integer" ∨ dataType = "double" ∨ dataType = "datetime" then
    jsOr (propGet typedValue "@value") (.str "")
  else typedValue

/-- The per-field value computation of `LogisticsObjectForm` (source lines
570-590): how the stored wire value `formData[field.name]` is decoded into
the plain value handed to a (non-array) `FormField`. -/
def formFieldValue (stored : JVal) (dataType : String) : JVal :=
  if dataType = "url" then jsOr (optChain stored "@id") (.str "")
  else if dataType = "boolean" then .bool (jsStrictEqStr (optChain stored "@value") "true")
  else if dataType = "integer" then
    .num (jsParseIntStr (jsToString (jsOr (optChain stored "@value") (.str "0"))))
  else if dataType = "double" then
    .num (jsParseFloatStr (jsToString (jsOr (optChain stored "@value") (.str "0"))))
  else if dataType = "datetime-local" then jsOr (optChain stored "@value") (.str "")
  else stored

/-- The scalar-encoding switch of `handleFieldChange` (source lines 494-553):
the wire value stored for a non-array field edit.  Note the integer branch
tags with the XSD double IRI (line 526 of the source). -/
def handleFieldChange (dparse : String → JNum) (fieldDataType fieldType : String) (value : JVal) : JVal :=
  if fieldDataType = "url" then
    if fieldType ≠ "fieldset" then .obj [("@id", value)] else value
  else if fieldDataType = "boolean" then
    .obj [("@type", .str xsdBoolean), ("@value", .str (if isTrueLiteral value then "true" else "false"))]
  else if fieldDataType = "integer" then
    .obj [("@type", .str xsdDouble), ("@value", .str (jsNumToString (jsParseIntStr (jsToString value))))]
  else if fieldDataType = "double" then
    .obj [("@type", .str xsdDouble), ("@value", .str (jsNumToString (jsParseFloatStr (jsToString value))))]
  else if fieldDataType = "datetime-local" then
    .obj [("@type", .str xsdDateTime), ("@value", .str (jsNumToString (dparse (jsToString value))))]
  else value

/-- The child-value encoding switch inside the fieldset `onChange` handler
(source lines 366-400). -/
def encodeFieldsetChild (dparse : String → JNum) (subDataType : String) (newValue : JVal) : JVal :=
  if subDataType = "url" then .obj [("@id", newValue)]
  else if subDataType = "boolean" then
    .obj [("@type", .str xsdBoolean), ("@value", .str (if isTrueLiteral newValue then "true" else "false"))]
  else if subDataType = "integer" then
    .obj [("@type", .str xsdInteger), ("@value", .str (jsNumToString (jsParseIntStr (jsToString newValue))))]
  else if subDataType = "double" then
    .obj [("@type", .str xsdDouble), ("@value", .str (jsNumToString (jsParseFloatStr (jsToString newValue))))]
  else if subDataType = "datetime" then
    .obj [("@type", .str xsdDateTime), ("@value", .str (jsNumToString (dparse (jsToString newValue))))]
  else newValue

/-- JavaScript object spread `{...v}` of a possibly non-object value: spreads
the fields of an object, nothing otherwise. -/
def spreadFields : JVal → List (String × JVal)
  | .obj fs => fs
  | _ => []

/-- The fieldset `onChange` handler (source lines 366-408): encode the edited
child, then build `{...value, '@type': field.valueIRI, [subField.name]:
processedValue}`. -/
def fieldsetOnChange (dparse : String → JNum) (fieldValueIRI subName subDataType : String)
    (value newValue : JVal) : JVal :=
  .obj (objSet (objSet (spreadFields value) "@type" (.str fieldValueIRI)) subName
    (encodeFieldsetChild dparse subDataType newValue))

/-- The `useDirectInput` effect of `FormField` (source lines 164-172): given
the current flag, compute the flag after the effect re-runs (it fires on any
change of `value`, `referenceOptions` or `loading`). -/
def useDirectInputEffect (fieldDataType value : String) (referenceOptions : List JVal)
    (loading flag : Bool) : Bool :=
  if fieldDataType = "url" ∧ value ≠ "" then
    if referenceOptions.any (fun o => jsStrictEqStr (propGet o "@id") value) = false ∧ loading = false
    then true
    else flag
  else flag

/-- An entry of the static codelist asset `codelists.json` (an external
collaborator of the component, consumed at source line 182). -/
structure CodelistItem where
  id : String
  description : String
deriving DecidableEq, Repr

/-- The codelist branch of `loadReferenceOptions` (source lines 178-190):
derive the codelist name as the text after `#` in `field.valueIRI`, look it
up in the codelist table (injected as `codelists`; a missing key behaves as
the source's `codelists.default[name] || []`), and map each entry to an
option object. -/
def loadCodelistOptions (codelists : String → Option (List CodelistItem)) (valueIRI : String) :
    List JVal :=
  let codelistName := (jsSplit '#' valueIRI)[1]?
  let entries :=
    match codelistName with
    | some k => (codelists k).getD []
    | none => []
  entries.map (fun item =>
    .obj [("@id", .str item.id), ("@type", .str valueIRI),
          ("description", .str item.description), ("id", .str item.id)])

/-- The array normalization of `FormField` (source line 291):
`Array.isArray(value) ? value : value ? [value] : []`. -/
def arrayValueOf (value : JVal) : List JVal :=
  match value with
  | .arr xs => xs
  | v => if jsTruthy v then [v] else []

/-- The element-edit branch of the array renderer (source lines 304-308):
`newArray[index] = createTypedValue(newValue, field.dataType)`. -/
def arrayUpdateAt (dparse : String → JNum) (value : JVal) (dataType : String) (index : Nat)
    (newValue : JVal) : List JVal :=
  (arrayValueOf value).set index (createTypedValue dparse newValue dataType)

/-- The remove-item branch of the array renderer (source lines 312-316):
`newArray.splice(index, 1)`. -/
def arrayRemoveAt (value : JVal) (index : Nat) : List JVal :=
  (arrayValueOf value).eraseIdx index

/-- The add-item branch of the array renderer (source line 325):
`[...arrayValue, createTypedValue('', field.dataType)]`. -/
def arrayAppend (dparse : String → JNum) (value : JVal) (dataType : String) : List JVal :=
  arrayValueOf value ++ [createTypedValue dparse (.str "") dataType]

/-- The basic-type list of `generateFormFields` (source line 49). -/
def basicTypes : List String := ["string", "boolean", "integer", "double", "datetime"]

/-- A column of a schema document (source of `generateFormFields`; the shape
is read off the property accesses at source lines 52-61). -/
structure Column where
  name : String := ""
  description : String := ""
  type : String := ""
  schemaType : String := ""
  array : Bool := false
  valueIRI : String := ""
  codelist : Bool := false
deriving DecidableEq, Repr

/-- The flat data of a resolved form field (source lines 52-62 plus the
per-branch assignments of `generateFormFields`). -/
structure FieldData where
  name : String
  label : String
  type : String
  schemaType : String
  array : Bool
  required : Bool
  description : String
  valueIRI : String
  codelist : Bool
  dataType : String
  options : Option (List JVal) := none
  referenceType : Option String := none

/-- A resolved form field: its flat data plus, for embedded fieldsets whose
schema loaded, the recursively resolved child fields (`field.fields`). -/
inductive Field where
  | mk : FieldData → Option (List Field) → Field

def Field.data : Field → FieldData
  | .mk d _ => d

def Field.fields : Field → Option (List Field)
  | .mk _ f => f

/-- The field literal built at source lines 52-62, before the `switch` on
`schemaType` assigns `dataType` (modelled as the placeholder `""`; every
branch overwrites it). -/
def baseField (c : Column) : FieldData :=
  { name := c.name
    label := if c.name ≠ "" then c.name else c.description
    type := c.type
    schemaType := c.schemaType
    array := c.array
    required := false
    description := c.description
    valueIRI := c.valueIRI
    codelist := c.codelist
    dataType := "" }

/-- The per-column body of `generateFormFields` (the `switch` at source lines
64-105): `embChildren` is the recursively resolved child list of a
successfully loaded embedded schema, `none` when the load failed (or the
column is not `Embedded`, in which case it is ignored). -/
def resolveColumnWith (c : Column) (embChildren : Option (List Field)) : Field :=
  if c.schemaType = "Embedded" then
    Field.mk { baseField c with dataType := "fieldset" } embChildren
  else if c.schemaType = "Enum" then
    Field.mk { baseField c with dataType := "url", type := "select", options := some [] } none
  else if basicTypes.contains (lowerStr c.type) then
    Field.mk { baseField c with dataType :=
      if (lowerStr c.type) = "boolean" then "boolean"
      else if (lowerStr c.type) = "integer" then "integer"
      else if (lowerStr c.type) = "double" then "double"
      else if (lowerStr c.type) = "datetime" then "datetime-local"
      else "text" } none
  else
    Field.mk { baseField c with dataType := "url", referenceType := some c.type } none

/-- `generateFormFields(columns)`, source lines 47-111.  The dynamic
`import` of `Embedded.<type>.json` is injected as `store` (`none` models a
failed/missing import, whose `catch` only logs); `fuel` bounds the embedded
nesting depth, with exhaustion behaving like a failed import. -/
def generateFormFields (store : String → Option (List Column)) :
    Nat → List Column → List Field
  | 0, cols => cols.map (fun c => resolveColumnWith c none)
  | Nat.succ fuel, cols =>
    cols.map (fun c => resolveColumnWith c
      (match store c.type with
       | some embeddedCols => some (generateFormFields store fuel embeddedCols)
       | none => none))

/-- The spec-side mapping from a basic scalar type name to the data type the
resolver is claimed to assign (the "corresponding scalar kind" of the claim
text); compared against the source-derived `generateFormFields`. -/
def scalarKindDataType (t : String) : String :=
  if t = "boolean" then "boolean"
  else if t = "integer" then "integer"
  else if t = "double" then "double"
  else if t = "datetime" then "datetime-local"
  else "text"

/-- The debounce effect of `LogisticsObjectForm` (source lines 481-492):
each edit `(t, s)` clears the pending timer and arms a new one for `t + w`;
when the timer fires before the next edit (or before the teardown time `T`
for the last edit) the snapshot `s` is emitted.  Returns the list of emitted
snapshots in order. -/
def debounceEmits {α : Type} (w T : Nat) : List (Nat × α) → List α
  | [] => []
  | (t, s) :: rest =>
    match rest with
    | [] => if t + w ≤ T then [s] else []
    | (t1, _) :: _ => (if t + w ≤ t1 then [s] else []) ++ debounceEmits w T rest

/-- All consecutive edit gaps are shorter than the window `w`. -/
def gapsOK {α : Type} (w : Nat) : List (Nat × α) → Bool
  | [] => true
  | [_] => true
  | a :: b :: rest => (decide (b.1 < a.1 + w)) && gapsOK w (b :: rest)

/-- A trivial `Date.parse` instantiation (always unparsable) used for concrete
checks; none of the verified properties depend on the date parser. -/
def dparse0 : String → JNum := fun _ => JNum.nan

/-- The option set `[{id:"A"},{id:"B"}]` of the spec's direct-input example. -/
def optsAB : List JVal := [.obj [("@id", .str "A")], .obj [("@id", .str "B")]]

/-- A one-entry codelist table with the single key `UnitType`. -/
def unitTable : String → Option (List CodelistItem) :=
  fun k => if k = "UnitType" then some [{ id := "KG", description := "kilogram" }] else none

/-- An `Embedded` column whose embedded schema fails to load. -/
def colBad : Column := { name := "bad", type := "X", schemaType := "Embedded" }

/-- A plain string column. -/
def colGood : Column := { name := "good", type := "string", schemaType := "Plain" }

/-- The spec's example column `{type: "Consignment", schemaType: "Plain"}`. -/
def colConsignment : Column := { name := "ref", type := "Consignment", schemaType := "Plain" }

/-- Five edits issued within 100 time-units (spec example for the 500-unit
debounce window). -/
def editsFive : List (Nat × String) := [(0, "s1"), (20, "s2"), (40, "s3"), (60, "s4"), (80, "s5")]

/-- The embedded value `{"@type": T, x: 1, y: 2}` of the spec's
sibling-preservation example (children in the component's integer wire form). -/
def embFs : List (String × JVal) :=
  [("@type", .str "T"),
   ("x", .obj [("@type", .str xsdInteger), ("@value", .str "1")]),
   ("y", .obj [("@type", .str xsdInteger), ("@value", .str "2")])]

/-! ### Helper lemmas -/

theorem jsTruthy_obj (fs : List (String × JVal)) : jsTruthy (.obj fs) = true := rfl

theorem objGet_objSet_self (fs : List (String × JVal)) (k : String) (v : JVal) :
    objGet (objSet fs k v) k = some v := by
  induction fs with
  | nil => simp [objGet, objSet, objRemove]
  | cons p rest ih =>
    by_cases h : p.1 = k
    · simpa [objSet, objRemove, h] using ih
    · simpa [objSet, objRemove, objGet, h] using ih

theorem objGet_objSet_ne (fs : List (String × JVal)) (k j : String) (v : JVal) (h : j ≠ k) :
    objGet (objSet fs k v) j = objGet fs j := by
  have hkj : (k = j) = False := by
    simp only [eq_iff_iff, iff_false]
    exact fun hh => h (Eq.symm hh)
  have hjk : (j = k) = False := by
    simp only [eq_iff_iff, iff_false]
    exact h
  induction fs with
  | nil => simp [objGet, objSet, objRemove, hkj]
  | cons p rest ih =>
    by_cases hp : p.1 = k
    · simpa [objSet, objRemove, objGet, hp, hkj, hjk] using ih
    · by_cases hj : p.1 = j
      · simp [objSet, objRemove, objGet, hp, hj, hkj, hjk]
      · simpa [objSet, objRemove, objGet, hp, hj, hkj, hjk] using ih

theorem getElem?_eraseIdx_of_lt {α : Type} (l : List α) (i j : Nat) (h : j < i) :
    (l.eraseIdx i)[j]? = l[j]? := by
  induction l generalizing i j with
  | nil => simp [List.eraseIdx]
  | cons x xs ih =>
    cases i with
    | zero => exact absurd h (Nat.not_lt_zero j)
    | succ n =>
      cases j with
      | zero => simp [List.eraseIdx]
      | succ m => simpa [List.eraseIdx] using ih n m (by omega)

theorem getElem?_eraseIdx_of_ge {α : Type} (l : List α) (i j : Nat) (h : i ≤ j) :
    (l.eraseIdx i)[j]? = l[j + 1]? := by
  induction l generalizing i j with
  | nil => simp [List.eraseIdx]
  | cons x xs ih =>
    cases i with
    | zero => simp [List.eraseIdx]
    | succ n =>
      cases j with
      | zero => exact absurd h (by omega)
      | succ m => simpa [List.eraseIdx] using ih n m (by omega)

/-! ### Claim theorems -/

/-- Claim C1: when one child of an embedded (fieldset) value is edited via the
child's `onChange`, the resulting embedded value is a shallow merge of the
previous embedded mapping: the edited child key carries the newly encoded
value, every sibling key is unchanged, and the `@type` tag is re-stamped to
the embedded schema's identifier (`field.valueIRI`); the previous fields are
spread into the result, never replaced wholesale. -/
theorem fieldset_child_edit_merge (dparse : String → JNum) (iri sub sdt : String)
    (fs : List (String × JVal)) (nv : JVal) (hsub : sub ≠ "@type") :
    fieldsetOnChange dparse iri sub sdt (.obj fs) nv
      = .obj (objSet (objSet fs "@type" (.str iri)) sub (encodeFieldsetChild dparse sdt nv))
    ∧ (∀ k, k ≠ sub → k ≠ "@type" →
        objGet (objSet (objSet fs "@type" (.str iri)) sub (encodeFieldsetChild dparse sdt nv)) k
          = objGet fs k)
    ∧ objGet (objSet (objSet fs "@type" (.str iri)) sub (encodeFieldsetChild dparse sdt nv)) sub
        = some (encodeFieldsetChild dparse sdt nv)
    ∧ objGet (objSet (objSet fs "@type" (.str iri)) sub (encodeFieldsetChild dparse sdt nv)) "@type"
        = some (.str iri) := by
  refine ⟨rfl, ?_, ?_, ?_⟩
  · intro k hk1 hk2
    rw [objGet_objSet_ne _ _ _ _ hk1, objGet_objSet_ne _ _ _ _ hk2]
  · exact objGet_objSet_self _ _ _
  · rw [objGet_objSet_ne _ _ _ _ (Ne.symm hsub)]
    exact objGet_objSet_self _ _ _

/-- Witness for C1 at the spec's example `{"@type": T, x: 1, y: 2}`: editing
`x` to `7` preserves `y` unchanged. -/
theorem fieldset_child_edit_merge_witness :
    objGet (spreadFields (fieldsetOnChange dparse0 "T" "x" "integer" (.obj embFs) (.str "7"))) "y"
      = objGet embFs "y" := by
  have h := fieldset_child_edit_merge dparse0 "T" "x" "integer" embFs (.str "7") (by decide)
  rw [h.1]
  simpa [spreadFields] using h.2.1 "y" (by decide) (by decide)

/-- Claim C2: decoding the encoding of `"true"` at the boolean kind yields the
string `"true"`; decoding the encoding of the number `42` at the integer kind
yields `"42"`, loosely equal (JavaScript `==` coercion) to `42`; and for the
integer kind, encode-then-decode is the identity on every decoded (string)
plain value. -/
theorem codec_roundtrip_boolean_integer (dparse : String → JNum) :
    extractValue (createTypedValue dparse (.str "true") "boolean") "boolean" = .str "true"
    ∧ extractValue (createTypedValue dparse (.num (.num 42)) "integer") "integer" = .str "42"
    ∧ jsLooseEq (extractValue (createTypedValue dparse (.num (.num 42)) "integer") "integer")
        (.num (.num 42)) = true
    ∧ (∀ s : String, extractValue (createTypedValue dparse (.str s) "integer") "integer" = .str s)
    ∧ (∀ s : String, extractValue (createTypedValue dparse (.str s) "boolean") "boolean"
        = .str (if s = "true" then "true" else "false")) := by
  refine ⟨rfl, rfl, ?_, ?_, ?_⟩
  · show jsLooseEq (.str "42") (.num (.num 42)) = true
    decide
  · intro s
    by_cases h : s = ""
    · subst h; rfl
    · simp [createTypedValue, extractValue, jsToString, jsToStringAtom, propGet, objGet,
        jsOr, jsTruthy, h]
  · intro s
    by_cases h : s = "true"
    · subst h; rfl
    · simp [createTypedValue, extractValue, isTrueLiteral, propGet, objGet, jsOr, jsTruthy, h]

/-- Counterexample to claim C3 as stated: at the plain input `"abc"`, the
field-level integer encoder `createTypedValue` stores `"abc"` verbatim (not
the `parseInt` result `"NaN"`), while the form-level encoder
`handleFieldChange` does store `"NaN"` but tags it with the XSD double IRI,
not the XSD integer IRI. -/
theorem integer_encode_counterexample :
    createTypedValue dparse0 (.str "abc") "integer"
      = .obj [("@type", .str xsdInteger), ("@value", .str "abc")]
    ∧ jsNumToString (jsParseIntStr "abc") = "NaN"
    ∧ ("abc" : String) ≠ "NaN"
    ∧ handleFieldChange dparse0 "integer" "text" (.str "abc")
      = .obj [("@type", .str xsdDouble), ("@value", .str "NaN")]
    ∧ xsdDouble ≠ xsdInteger :=
  ⟨rfl, rfl, by decide, rfl, by decide⟩

/-- Claim C3 as amended: the integer-kind encoding is split across three code
paths. `createTypedValue` tags with the XSD integer IRI but stores
`String(plain)` verbatim (no `parseInt`, hence no `"NaN"` sentinel);
`handleFieldChange` stores the decimal string of `parseInt(plain, 10)` —
`"NaN"` for non-parsing input, without raising — but tags with the XSD double
IRI; the embedded-child path uses both the XSD integer IRI and the `parseInt`
string.  No path raises on any input. -/
theorem integer_encode_two_paths (dparse : String → JNum) :
    (∀ v, createTypedValue dparse v "integer"
        = .obj [("@type", .str xsdInteger), ("@value", .str (jsToString v))])
    ∧ (∀ ft v, handleFieldChange dparse "integer" ft v
        = .obj [("@type", .str xsdDouble),
                ("@value", .str (jsNumToString (jsParseIntStr (jsToString v))))])
    ∧ (∀ v, encodeFieldsetChild dparse "integer" v
        = .obj [("@type", .str xsdInteger),
                ("@value", .str (jsNumToString (jsParseIntStr (jsToString v))))]) :=
  ⟨fun _ => rfl, fun _ _ => rfl, fun _ => rfl⟩

/-- Counterexample to claim C4 as stated: with a two-column list whose first
column is `Embedded` and whose embedded schema fails to load, the failing
field is not omitted — the resolved list still has two entries and the first
carries the failing column's name (with no resolved children). -/
theorem embedded_failure_not_omitted :
    ((generateFormFields (fun _ => none) 5 [colBad, colGood]).map (fun f => f.data.name))
      = ["bad", "good"]
    ∧ ((generateFormFields (fun _ => none) 5 [colBad, colGood]).map Field.fields)
      = [none, none]
    ∧ (generateFormFields (fun _ => none) 5 [colBad, colGood]).length = 2 :=
  ⟨rfl, rfl, rfl⟩

/-- Claim C4 as amended: when an `Embedded` column's embedded schema cannot be
loaded, schema resolution keeps the failing field in the result (as a
fieldset with no resolved children, `fields = none`), the error is only
logged, and every sibling column is still resolved in order (resolution does
not abort). -/
theorem embedded_failure_keeps_field (store : String → Option (List Column)) (fuel : Nat)
    (c : Column) (rest : List Column)
    (hemb : c.schemaType = "Embedded") (hfail : store c.type = none) :
    generateFormFields store fuel (c :: rest)
      = Field.mk { baseField c with dataType := "fieldset" } none
          :: generateFormFields store fuel rest := by
  cases fuel <;> simp [generateFormFields, resolveColumnWith, hemb, hfail]

/-- Witness for the amended C4 at a concrete failing store and column list. -/
theorem embedded_failure_keeps_field_witness :
    generateFormFields (fun _ => none) 5 [colBad, colGood]
      = Field.mk { baseField colBad with dataType := "fieldset" } none
          :: generateFormFields (fun _ => none) 5 [colGood] :=
  embedded_failure_keeps_field (fun _ => none) 5 colBad [colGood] rfl rfl

/-- Counterexample to claim C5 as stated: with options `[{id:"A"},{id:"B"}]`,
after the value `"C"` (no match) sets the direct-input flag, a re-evaluation
with the matching value `"A"` leaves the flag `true` — the effect never
resets it to `false`, contradicting the claim that the flag is false whenever
the current value matches a loaded option. -/
theorem direct_input_flag_counterexample :
    useDirectInputEffect "url" "A" optsAB false
        (useDirectInputEffect "url" "C" optsAB false false) = true := rfl

/-- Claim C5 as amended: the effect sets the flag to `true` whenever the field
is a reference, the current value is non-empty, no loaded option's `@id`
matches it and loading is finished; the flag is sticky (once `true` it is
never reset by the effect); and starting from `false` with a value that does
match a loaded option it stays `false`.  The effect re-runs on every change
of the value, option set or loading state, and computes only the flag — it
never touches the underlying value. -/
theorem direct_input_flag_behavior (dt v : String) (opts : List JVal) (loading flag : Bool) :
    (dt = "url" → v ≠ "" →
      opts.any (fun o => jsStrictEqStr (propGet o "@id") v) = false → loading = false →
      useDirectInputEffect dt v opts loading flag = true)
    ∧ (flag = true → useDirectInputEffect dt v opts loading flag = true)
    ∧ (flag = false → opts.any (fun o => jsStrictEqStr (propGet o "@id") v) = true →
      useDirectInputEffect dt v opts loading flag = false) := by
  unfold useDirectInputEffect
  refine ⟨?_, ?_, ?_⟩ <;> intros <;> split_ifs <;> simp_all

/-- Witness for the amended C5 at the spec's example options. -/
theorem direct_input_flag_behavior_witness :
    useDirectInputEffect "url" "C" optsAB false false = true
    ∧ useDirectInputEffect "url" "A" optsAB false false = false := by
  constructor
  · exact (direct_input_flag_behavior "url" "C" optsAB false false).1 rfl (by decide) rfl rfl
  · exact (direct_input_flag_behavior "url" "A" optsAB false false).2.2 rfl rfl

/-- Counterexample to claim C6 as stated: the decode helper `extractValue` at
the integer kind defaults a missing `@value` key to the empty string, not to
`"0"` (and not to the parsed `0`). -/
theorem extract_integer_default_counterexample :
    extractValue (.obj [("@type", .str xsdInteger)]) "integer" = .str ""
    ∧ JVal.str "" ≠ JVal.num (.num 0)
    ∧ JVal.str "" ≠ JVal.str "0" := by
  refine ⟨rfl, ?_, ?_⟩ <;> intro h <;> simp at h

/-- Claim C6 as amended: decoding is total and never raises.  The form-level
extraction defaults an absent field to `""` for reference and datetime and to
the numeric parse of `"0"` (that is, `0`) for integer and double, and the
same for an object missing the `@value` key; it extracts `@id` for the
reference kind and `@value` for tagged scalar kinds when present and truthy.
The helper `extractValue` extracts the same keys but defaults the absent key
to the empty string for every kind, including integer and double, without
numeric parsing. -/
theorem decode_total_defaults :
    (formFieldValue .undefined "url" = .str ""
      ∧ formFieldValue .undefined "datetime-local" = .str ""
      ∧ formFieldValue .undefined "integer" = .num (.num 0)
      ∧ formFieldValue .undefined "double" = .num (.num 0))
    ∧ (∀ fs, objGet fs "@value" = none →
        formFieldValue (.obj fs) "integer" = .num (.num 0)
        ∧ formFieldValue (.obj fs) "double" = .num (.num 0)
        ∧ extractValue (.obj fs) "integer" = .str ""
        ∧ extractValue (.obj fs) "double" = .str ""
        ∧ extractValue (.obj fs) "datetime" = .str "")
    ∧ (∀ fs, objGet fs "@id" = none →
        formFieldValue (.obj fs) "url" = .str "" ∧ extractValue (.obj fs) "url" = .str "")
    ∧ (∀ fs v, objGet fs "@id" = some v → jsTruthy v = true →
        formFieldValue (.obj fs) "url" = v ∧ extractValue (.obj fs) "url" = v)
    ∧ (∀ fs v, objGet fs "@value" = some v → jsTruthy v = true →
        extractValue (.obj fs) "integer" = v
        ∧ extractValue (.obj fs) "datetime" = v
        ∧ formFieldValue (.obj fs) "datetime-local" = v) := by
  refine ⟨⟨rfl, rfl, rfl, rfl⟩, ?_, ?_, ?_, ?_⟩
  · intro fs h
    have h1 : optChain (.obj fs) "@value" = .undefined := by simp [optChain, propGet, h]
    have h2 : propGet (.obj fs) "@value" = .undefined := by simp [propGet, h]
    refine ⟨?_, ?_, ?_, ?_, ?_⟩ <;>
      simp [formFieldValue, extractValue, h1, h2, jsOr, jsTruthy] <;> rfl
  · intro fs h
    have h1 : optChain (.obj fs) "@id" = .undefined := by simp [optChain, propGet, h]
    have h2 : propGet (.obj fs) "@id" = .undefined := by simp [propGet, h]
    exact ⟨by simp [formFieldValue, h1, jsOr, jsTruthy],
      by simp [extractValue, h2, jsOr, jsTruthy]⟩
  · intro fs v h hv
    have h1 : optChain (.obj fs) "@id" = v := by simp [optChain, propGet, h]
    have h2 : propGet (.obj fs) "@id" = v := by simp [propGet, h]
    exact ⟨by simp [formFieldValue, h1, jsOr, hv],
      by simp [extractValue, h2, jsOr, hv, jsTruthy_obj]⟩
  · intro fs v h hv
    have h1 : optChain (.obj fs) "@value" = v := by simp [optChain, propGet, h]
    have h2 : propGet (.obj fs) "@value" = v := by simp [propGet, h]
    exact ⟨by simp [extractValue, h2, jsOr, hv, jsTruthy_obj],
      by simp [extractValue, h2, jsOr, hv, jsTruthy_obj],
      by simp [formFieldValue, h1, jsOr, hv]⟩

/-- Witness for the amended C6 at concrete wire objects. -/
theorem decode_total_defaults_witness :
    formFieldValue (.obj [("@type", .str "t")]) "integer" = .num (.num 0)
    ∧ extractValue (.obj [("@type", .str "t")]) "integer" = .str ""
    ∧ extractValue (.obj [("@value", .str "5")]) "integer" = .str "5" := by
  refine ⟨?_, ?_, ?_⟩
  · exact (decode_total_defaults.2.1 [("@type", .str "t")] rfl).1
  · exact (decode_total_defaults.2.1 [("@type", .str "t")] rfl).2.2.1
  · exact (decode_total_defaults.2.2.2.2 [("@value", .str "5")] (.str "5") rfl rfl).1

/-- Resolution of a non-`Embedded`, non-`Enum` column, expressed against the
spec-side scalar-kind mapping `scalarKindDataType`. -/
theorem resolveColumnWith_plain (c : Column)
    (h1 : c.schemaType ≠ "Embedded") (h2 : c.schemaType ≠ "Enum")
    (emb : Option (List Field)) :
    resolveColumnWith c emb
      = Field.mk { baseField c with
          dataType := if basicTypes.contains (lowerStr c.type)
            then scalarKindDataType (lowerStr c.type) else "url",
          referenceType := if basicTypes.contains (lowerStr c.type)
            then none else some c.type } none := by
  unfold resolveColumnWith
  rw [if_neg h1, if_neg h2]
  by_cases hb : basicTypes.contains (lowerStr c.type) = true
  · simp only [if_pos hb]; rfl
  · simp only [if_neg hb]

/-- Claim C7: a non-`Embedded`, non-`Enum` column whose type matches one of
the five basic scalar types case-insensitively resolves to the corresponding
scalar data type (and no `referenceType`), and any other such column resolves
to a reference (`dataType = "url"`) whose `referenceType` is the column's
type. -/
theorem plain_column_classification (store : String → Option (List Column)) (fuel : Nat)
    (c : Column) (h1 : c.schemaType ≠ "Embedded") (h2 : c.schemaType ≠ "Enum") :
    generateFormFields store fuel [c]
      = [Field.mk { baseField c with
            dataType := if basicTypes.contains (lowerStr c.type)
              then scalarKindDataType (lowerStr c.type) else "url",
            referenceType := if basicTypes.contains (lowerStr c.type)
              then none else some c.type } none] := by
  cases fuel <;>
    simp only [generateFormFields, List.map_cons, List.map_nil,
      resolveColumnWith_plain c h1 h2]

/-- Witness for C7 at the spec's example column
`{type: "Consignment", schemaType: "Plain"}`. -/
theorem plain_column_classification_witness :
    (generateFormFields (fun _ => none) 0 [colConsignment]).map (fun f => f.data.referenceType)
      = [some "Consignment"]
    ∧ (generateFormFields (fun _ => none) 0 [colConsignment]).map (fun f => f.data.dataType)
      = ["url"] := by
  have h := plain_column_classification (fun _ => none) 0 colConsignment (by decide) (by decide)
  rw [h]
  exact ⟨rfl, rfl⟩

/-- Claim C8: for a codelist field, the lookup key is the text after the `#`
fragment separator of `field.valueIRI`; options come only from that key's
entry in the static table, each entry mapped to an object carrying its
identifier under both `@id` and the legacy `id` key with its description;
a key missing from the table (or an IRI with no fragment) yields the empty
list, not an error. -/
theorem codelist_option_loading (table : String → Option (List CodelistItem)) :
    (∀ entries, table "UnitType" = some entries →
      loadCodelistOptions table "http://example.org/codes#UnitType"
        = entries.map (fun item =>
            .obj [("@id", .str item.id), ("@type", .str "http://example.org/codes#UnitType"),
                  ("description", .str item.description), ("id", .str item.id)]))
    ∧ (∀ iri k, (jsSplit '#' iri)[1]? = some k → table k = none →
        loadCodelistOptions table iri = [])
    ∧ (∀ iri, (jsSplit '#' iri)[1]? = none → loadCodelistOptions table iri = []) := by
  refine ⟨?_, ?_, ?_⟩
  · intro entries h
    have hs : (jsSplit '#' "http://example.org/codes#UnitType")[1]? = some "UnitType" := rfl
    simp [loadCodelistOptions, hs, h]
  · intro iri k hs hk
    simp [loadCodelistOptions, hs, hk]
  · intro iri hs
    simp [loadCodelistOptions, hs]

/-- Witness for C8 at the spec's example IRI, a one-key table and an unknown
key. -/
theorem codelist_option_loading_witness :
    loadCodelistOptions unitTable "http://example.org/codes#UnitType"
      = [.obj [("@id", .str "KG"), ("@type", .str "http://example.org/codes#UnitType"),
               ("description", .str "kilogram"), ("id", .str "KG")]]
    ∧ loadCodelistOptions unitTable "http://example.org/codes#Unknown" = [] := by
  constructor
  · exact (codelist_option_loading unitTable).1 [{ id := "KG", description := "kilogram" }] rfl
  · exact (codelist_option_loading unitTable).2.1 "http://example.org/codes#Unknown" "Unknown"
      rfl rfl

/-- Claim C9: the snapshot emission is debounced with a window of `w`
time-units reset by each edit; for any non-empty edit sequence whose
consecutive gaps are all shorter than `w`, exactly one snapshot is emitted —
the state after the last edit — provided the store lives until the window
closes (`e.1 + w ≤ T`); intermediate states are never emitted, and a window
still pending at teardown (`T < e.1 + w`) emits nothing. -/
theorem debounce_coalesces {α : Type} (w T : Nat) (edits : List (Nat × α)) (e : Nat × α)
    (hgaps : gapsOK w edits = true) (hlast : edits.getLast? = some e) :
    (e.1 + w ≤ T → debounceEmits w T edits = [e.2])
    ∧ (T < e.1 + w → debounceEmits w T edits = []) := by
  induction edits with
  | nil => simp at hlast
  | cons a rest ih =>
    cases rest with
    | nil =>
      rw [List.getLast?_singleton] at hlast
      injection hlast with he
      subst he
      constructor
      · intro h
        simp only [debounceEmits]
        rw [if_pos h]
      · intro h
        simp only [debounceEmits]
        rw [if_neg (by omega)]
    | cons b rest2 =>
      have hab : b.1 < a.1 + w := by
        simp only [gapsOK, Bool.and_eq_true, decide_eq_true_eq] at hgaps
        exact hgaps.1
      have hg2 : gapsOK w (b :: rest2) = true := by
        simp only [gapsOK, Bool.and_eq_true] at hgaps ⊢
        exact hgaps.2
      have hl2 : (b :: rest2).getLast? = some e := by
        rw [← List.getLast?_cons_cons]
        exact hlast
      have ih2 := ih hg2 hl2
      have hno : ¬ (a.1 + w ≤ b.1) := by omega
      constructor
      · intro h
        simp only [debounceEmits, if_neg hno, List.nil_append]
        exact ih2.1 h
      · intro h
        simp only [debounceEmits, if_neg hno, List.nil_append]
        exact ih2.2 h

/-- Witness for C9 at the spec's example: five edits within 100 time-units
and a 500-unit window emit exactly the last state when the store survives the
window, and nothing when it is torn down first. -/
theorem debounce_coalesces_witness :
    debounceEmits 500 1000 editsFive = ["s5"] ∧ debounceEmits 500 400 editsFive = [] := by
  constructor
  · exact (debounce_coalesces 500 1000 editsFive (80, "s5") (by decide) (by decide)).1 (by decide)
  · exact (debounce_coalesces 500 400 editsFive (80, "s5") (by decide) (by decide)).2 (by decide)

/-- Claim C10: an array field's current value is normalized before
element-wise operations — an array is used as-is, a truthy non-array becomes
a singleton, a falsy value becomes empty — and update-at-index,
remove-at-index and append act on the normalized array, encoding each edited
or appended element through the scalar codec `createTypedValue`. -/
theorem array_normalization_and_ops (dparse : String → JNum) (dt : String) :
    (∀ xs, arrayValueOf (.arr xs) = xs)
    ∧ (∀ v, (∀ xs, v ≠ .arr xs) → jsTruthy v = true → arrayValueOf v = [v])
    ∧ (∀ v, jsTruthy v = false → arrayValueOf v = [])
    ∧ (∀ v i nv, i < (arrayValueOf v).length →
        (arrayUpdateAt dparse v dt i nv)[i]? = some (createTypedValue dparse nv dt)
        ∧ ∀ j, j ≠ i → (arrayUpdateAt dparse v dt i nv)[j]? = (arrayValueOf v)[j]?)
    ∧ (∀ v i, i < (arrayValueOf v).length →
        (arrayRemoveAt v i).length + 1 = (arrayValueOf v).length
        ∧ (∀ j, j < i → (arrayRemoveAt v i)[j]? = (arrayValueOf v)[j]?)
        ∧ (∀ j, i ≤ j → (arrayRemoveAt v i)[j]? = (arrayValueOf v)[j + 1]?))
    ∧ (∀ v, (arrayAppend dparse v dt).length = (arrayValueOf v).length + 1
        ∧ (arrayAppend dparse v dt)[(arrayValueOf v).length]?
            = some (createTypedValue dparse (.str "") dt)
        ∧ ∀ j, j < (arrayValueOf v).length →
            (arrayAppend dparse v dt)[j]? = (arrayValueOf v)[j]?) := by
  refine ⟨fun xs => rfl, ?_, ?_, ?_, ?_, ?_⟩
  · intro v hne ht
    cases v with
    | arr xs => exact absurd rfl (hne xs)
    | undefined => simp [jsTruthy] at ht
    | null => simp [jsTruthy] at ht
    | bool b => simp [arrayValueOf, ht]
    | num n => simp [arrayValueOf, ht]
    | str s => simp [arrayValueOf, ht]
    | obj fsv => simp [arrayValueOf, ht]
  · intro v ht
    cases v with
    | arr xs => simp [jsTruthy] at ht
    | undefined => rfl
    | null => rfl
    | bool b => simp [arrayValueOf, ht]
    | num n => simp [arrayValueOf, ht]
    | str s => simp [arrayValueOf, ht]
    | obj fsv => simp [arrayValueOf, ht]
  · intro v i nv hi
    refine ⟨?_, ?_⟩
    · exact List.getElem?_set_eq_of_lt _ (by simpa [arrayUpdateAt] using hi)
    · intro j hj
      exact List.getElem?_set_ne (fun hh => hj (Eq.symm hh))
  · intro v i hi
    exact ⟨List.length_eraseIdx_add_one hi,
      fun j hj => getElem?_eraseIdx_of_lt _ i j hj,
      fun j hj => getElem?_eraseIdx_of_ge _ i j hj⟩
  · intro v
    refine ⟨by simp [arrayAppend], ?_, ?_⟩
    · exact List.getElem?_concat_length (arrayValueOf v)
        (createTypedValue dparse (.str "") dt)
    · intro j hj
      simp [arrayAppend, List.getElem?_append_left hj]

/-- Witness for C10 at concrete values: a truthy non-array string is wrapped
into a singleton, and updating index 0 stores the codec-encoded new value. -/
theorem array_normalization_and_ops_witness :
    arrayValueOf (.str "x") = [.str "x"]
    ∧ (arrayUpdateAt dparse0 (.str "x") "text" 0 (.str "y"))[0]?
        = some (createTypedValue dparse0 (.str "y") "text") := by
  have h := array_normalization_and_ops dparse0 "text"
  constructor
  · exact h.2.1 (.str "x") (fun xs hh => JVal.noConfusion hh) rfl
  · exact (h.2.2.2.1 (.str "x") 0 (.str "y") (by decide)).1

end LOForm
